import Mathlib

/-!
Shallow embedding of the mini-claude-code agent core
(src/v1_basic_agent.py and src/v2_todo_agent.py) and proofs about it.

Modelling conventions:
* Python strings are Lean `String`s; the Python string operations used by the
  source (`strip`, `lower`, `in`, `replace(old, new, 1)`, slicing `[:n]`,
  `splitlines`, `split("/")`) are re-implemented below as structurally
  recursive functions on `String.data` so that every definition evaluates
  inside the kernel.  `strip`/`lower` are modelled on ASCII whitespace and
  ASCII case, which is what the agent's fixed vocabulary uses.
* Filesystem paths are lists of components; `Path.resolve()` is modelled as
  lexical normalisation of `.` / `..` components clamped at the filesystem
  root (a symlink-free filesystem).  The sandbox root `WORKDIR` is an
  arbitrary canonical component list; the filesystem root `/` is `[]`.
* The filesystem itself is an association list from resolved paths to file
  contents plus the set of directories created so far.
* The external shell (`subprocess.run`) is an oracle parameter
  `ShellOutcome`: the combined stdout+stderr of a finished process, a
  timeout, or a spawn failure.  `run_bash` is total over all oracle values.
* Raising a Python exception that the source catches is modelled with
  `Except`; an uncaught `KeyError` from a missing required argument is
  modelled as `Option.none` at the dispatch boundary.
-/

/-! ### Python string primitives -/

/-- `needle` is a prefix of `hay` (the scanning step of Python's `in`). -/
def startsWith {α : Type} [BEq α] : List α → List α → Bool
  | [], _ => true
  | _ :: _, [] => false
  | a :: as, b :: bs => a == b && startsWith as bs

/-- Python's substring test `needle in hay`, on character lists. -/
def containsSub {α : Type} [BEq α] (needle : List α) : List α → Bool
  | [] => startsWith needle []
  | c :: rest => startsWith needle (c :: rest) || containsSub needle rest

/-- Python `needle in hay` on strings. -/
def pyIn (needle hay : String) : Bool := containsSub needle.data hay.data

/-- Strip ASCII whitespace from both ends of a character list. -/
def stripList (s : List Char) : List Char :=
  ((s.dropWhile Char.isWhitespace).reverse.dropWhile Char.isWhitespace).reverse

/-- Python `s.strip()` (ASCII whitespace). -/
def pyStrip (s : String) : String := ⟨stripList s.data⟩

/-- Python `s.lower()` (ASCII case). -/
def pyLower (s : String) : String := ⟨s.data.map Char.toLower⟩

/-- Python slicing `s[:n]` for a nonnegative bound: the first `n` characters. -/
def strTake (s : String) (n : Nat) : String := ⟨s.data.take n⟩

/-- Python `s.replace(old, new, 1)`: replace the leftmost occurrence of
`old` (the empty needle matches at position 0, as in Python). -/
def replaceFirst (old new : List Char) (s : List Char) : List Char :=
  if startsWith old s then new ++ s.drop old.length
  else
    match s with
    | [] => []
    | c :: rest => c :: replaceFirst old new rest

/-- Python `content.replace(old_text, new_text, 1)` on strings. -/
def pyReplaceOnce (s old new : String) : String :=
  ⟨replaceFirst old.data new.data s.data⟩

/-- Python `"\n".join(lines)`. -/
def joinWithNewline : List String → String
  | [] => ""
  | [l] => l
  | l :: l2 :: rest => l ++ "\n" ++ joinWithNewline (l2 :: rest)

/-- Helper for `pySplitlines`: accumulate the current (reversed) line. -/
def splitlinesAux : List Char → List Char → List String
  | cur, [] => if cur.isEmpty then [] else [⟨cur.reverse⟩]
  | cur, c :: rest =>
    if c == '\n' then (⟨cur.reverse⟩ : String) :: splitlinesAux [] rest
    else splitlinesAux (c :: cur) rest

/-- Python `text.splitlines()` (newline-terminated lines; a trailing
newline produces no trailing empty line, and `""` splits to `[]`). -/
def pySplitlines (s : String) : List String := splitlinesAux [] s.data

/-- Helper for `splitSlash`: accumulate the current (reversed) component. -/
def splitSlashAux : List Char → List Char → List String
  | cur, [] => [⟨cur.reverse⟩]
  | cur, c :: rest =>
    if c == '/' then (⟨cur.reverse⟩ : String) :: splitSlashAux [] rest
    else splitSlashAux (c :: cur) rest

/-- Split a candidate path string on `/` into components (the components a
`pathlib.Path` built from a relative path string has). -/
def splitSlash (s : String) : List String := splitSlashAux [] s.data

/-! ### TodoManager (src/v2_todo_agent.py lines 39-107) -/

/-- One element of the JSON array handed to `TodoWrite`: either a JSON
object whose `content` / `status` / `activeForm` keys may each be absent
(`item.get` semantics), or a value that is not an object at all. -/
inductive RawItem where
  | obj (content status activeForm : Option String)
  | nonObj
deriving DecidableEq

/-- The `items` argument of `update`: a JSON array of `RawItem`s, or a
value that is not a list (`isinstance(items, list)` fails). -/
inductive TodoInput where
  | list (items : List RawItem)
  | notAList
deriving DecidableEq

/-- A validated, stored task item (content and activeForm stripped, status
lowercased). -/
structure TodoItem where
  content : String
  status : String
  activeForm : String
deriving DecidableEq

/-- `str(item.get("content", "")).strip()`. -/
def normContent (c : Option String) : String := pyStrip (c.getD "")

/-- `str(item.get("status", "pending")).lower()`. -/
def normStatus (s : Option String) : String := pyLower (s.getD "pending")

/-- `status in ("pending", "in_progress", "completed")`. -/
def statusValid (s : String) : Bool :=
  s == "pending" || s == "in_progress" || s == "completed"

/-- The per-item loop of `TodoManager.update` (lines 58-81): validate each
item in order, or stop with the first item's error. -/
def validateItems : Nat → List RawItem → Except String (List TodoItem)
  | _, [] => Except.ok []
  | i, RawItem.nonObj :: _ =>
    Except.error ("Item " ++ toString i ++ " must be an object")
  | i, RawItem.obj c s a :: rest =>
    let content := normContent c
    if content == "" then Except.error ("Item " ++ toString i ++ ": content required")
    else
      let status := normStatus s
      if !(statusValid status) then
        Except.error ("Item " ++ toString i ++ ": invalid status " ++ status)
      else
        let activeForm := pyStrip (a.getD "")
        if activeForm == "" then
          Except.error ("Item " ++ toString i ++ ": activeForm required")
        else
          match validateItems (i + 1) rest with
          | Except.error e => Except.error e
          | Except.ok tl =>
            Except.ok ({ content := content, status := status, activeForm := activeForm } :: tl)

/-- The stored task list (`self.items`). -/
structure TodoManager where
  items : List TodoItem
deriving DecidableEq

/-- One line of `TodoManager.render` (lines 97-103). -/
def renderLine (item : TodoItem) : String :=
  if item.status == "completed" then "[x] " ++ item.content
  else if item.status == "in_progress" then
    "[>] " ++ item.content ++ " <- " ++ item.activeForm
  else "[ ] " ++ item.content

/-- `TodoManager.render` (lines 91-107). -/
def TodoManager.render (m : TodoManager) : String :=
  if m.items.isEmpty then "No todos."
  else
    let completed := m.items.countP (fun t => t.status == "completed")
    joinWithNewline
      (m.items.map renderLine ++
        ["\n(" ++ toString completed ++ "/" ++ toString m.items.length ++ " completed)"])

/-- `TodoManager.update` (lines 50-89): validate the whole candidate list,
then the length bound, then the single-`in_progress` bound; only on full
success replace the stored list (wholesale) and return the rendered view.
Returns the post-state together with the result. -/
def TodoManager.update (m : TodoManager) (input : TodoInput) :
    TodoManager × Except String String :=
  match input with
  | TodoInput.notAList => (m, Except.error "Items must be a list")
  | TodoInput.list ris =>
    match validateItems 0 ris with
    | Except.error e => (m, Except.error e)
    | Except.ok validated =>
      if validated.length > 20 then (m, Except.error "Max 20 todos allowed")
      else if validated.countP (fun t => t.status == "in_progress") > 1 then
        (m, Except.error "Only one task can be in_progress")
      else
        let m2 : TodoManager := { items := validated }
        (m2, Except.ok m2.render)

/-- The normalised item an all-valid run of the loop stores for `ri`
(the `nonObj` branch is never reached on valid input). -/
def normItem (ri : RawItem) : TodoItem :=
  match ri with
  | RawItem.nonObj => { content := "", status := "", activeForm := "" }
  | RawItem.obj c s a =>
    { content := normContent c, status := normStatus s, activeForm := pyStrip (a.getD "") }

/-- A raw item passes all three per-item checks of `update`. -/
def itemOk (ri : RawItem) : Bool :=
  match ri with
  | RawItem.nonObj => false
  | RawItem.obj c s a =>
    !(normContent c == "") && statusValid (normStatus s) && !(pyStrip (a.getD "") == "")

/-- The raw item would be stored with status `in_progress`. -/
def inProgressRaw (ri : RawItem) : Bool := (normItem ri).status == "in_progress"

/-- The raw item would be stored with status `completed`. -/
def completedRaw (ri : RawItem) : Bool := (normItem ri).status == "completed"

/-- The input violates at least one of `update`'s validation rules:
not a list, some item not a structured valid item, more than 20 items,
or more than one item in progress. -/
def violatesRules (input : TodoInput) : Bool :=
  match input with
  | TodoInput.notAList => true
  | TodoInput.list ris =>
    ris.any (fun ri => !(itemOk ri)) ||
    decide (20 < ris.length) ||
    decide (1 < ris.countP inProgressRaw)

/-! ### Sandboxed paths (v2 lines 206-210, v1 lines 105-110) -/

/-- Lexical normalisation of a component sequence against an accumulator:
`.` and empty components vanish, `..` pops one component (clamping at the
filesystem root, as POSIX `/..` does).  Models `Path.resolve()` on a
symlink-free filesystem. -/
def resolveComps : List String → List String → List String
  | acc, [] => acc
  | acc, c :: rest =>
    if c == "." || c == "" then resolveComps acc rest
    else if c == ".." then resolveComps acc.dropLast rest
    else resolveComps (acc ++ [c]) rest

/-- A component that survives normalisation unchanged. -/
def canonicalComp (c : String) : Bool := !(c == "." || c == ".." || c == "")

/-- A path already in canonical form (what `Path.cwd()` returns). -/
def canonicalPath (p : List String) : Bool := p.all canonicalComp

/-- `safe_path` (v2 lines 206-210): join the candidate components to the
sandbox root, canonicalize, and require the result to be the root or a
descendant of it. -/
def safe_path (root : List String) (p : List String) : Except String (List String) :=
  let path := resolveComps [] (root ++ p)
  if startsWith root path then Except.ok path
  else Except.error "Path escapes workspace"

/-! ### Filesystem state -/

/-- The sandbox filesystem: file contents keyed by resolved path, plus the
directories created so far. -/
structure FS where
  files : List (List String × String)
  dirs : List (List String)
deriving DecidableEq

/-- Read a file's content (`read_text`), if the file exists. -/
def lookupFile (fs : FS) (p : List String) : Option String :=
  (fs.files.find? (fun kv => kv.1 == p)).map (fun kv => kv.2)

/-- Overwrite-or-create an entry in the file table (`write_text`). -/
def setFile : List (List String × String) → List String → String → List (List String × String)
  | [], p, content => [(p, content)]
  | kv :: rest, p, content =>
    if kv.1 == p then (p, content) :: rest else kv :: setFile rest p content

/-- All prefixes of a component list, shortest first. -/
def prefixList : List String → List (List String)
  | [] => [[]]
  | c :: rest => [] :: (prefixList rest).map (fun q => c :: q)

/-! ### Tool implementations (v2 lines 213-264, v1 lines 113-165) -/

/-- What the external `subprocess.run` call does: the process finished
with some combined stdout+stderr, it hit the 60-second timeout, or
spawning failed. -/
inductive ShellOutcome where
  | finished (combined : String)
  | timedOut
  | failed (msg : String)
deriving DecidableEq

/-- The observable outcome of `run_bash`: whether a process was spawned at
all, and the text returned to the dispatcher. -/
structure BashResult where
  spawned : Bool
  output : String
deriving DecidableEq

/-- The v2 denylist (v2 line 214). -/
def dangerous_v2 : List String := ["rm -rf /", "sudo", "shutdown", "reboot"]

/-- The v1 denylist (v1 line 115), which also covers raw device redirection. -/
def dangerous_v1 : List String := ["rm -rf /", "sudo", "shutdown", "reboot", "> /dev/"]

/-- Common body of both `run_bash` versions: denylist check first (no
process spawned on a hit), then the oracle outcome, stripped and capped. -/
def run_bash_core (dangerous : List String) (timeoutMsg : String)
    (shell : ShellOutcome) (cmd : String) : BashResult :=
  if dangerous.any (fun d => pyIn d cmd) then
    { spawned := false, output := "Error: Dangerous command blocked" }
  else
    { spawned := true,
      output :=
        match shell with
        | ShellOutcome.finished s =>
          let out := pyStrip s
          if out == "" then "(no output)" else strTake out 50000
        | ShellOutcome.timedOut => timeoutMsg
        | ShellOutcome.failed msg => "Error: " ++ msg }

/-- `run_bash` of v2 (lines 213-224). -/
def run_bash (shell : ShellOutcome) (cmd : String) : BashResult :=
  run_bash_core dangerous_v2 "Error: Timeout" shell cmd

/-- `run_bash` of v1 (lines 113-127). -/
def run_bash_v1 (shell : ShellOutcome) (cmd : String) : BashResult :=
  run_bash_core dangerous_v1 "Error: Command timed out (60s)" shell cmd

/-- Python `lines[:limit]` for an arbitrary integer bound (negative bounds
count from the end, as Python slicing does). -/
def pySliceStrings (n : Int) (xs : List String) : List String :=
  if 0 ≤ n then xs.take n.toNat else xs.take (xs.length - (-n).toNat)

/-- The line-truncation core of v2's `run_read` (lines 229-233), applied to
the `splitlines` of the file's text: `if limit and limit < len(lines)`
(so a limit of 0 is falsy and truncates nothing), then the slice plus one
omission marker, joined and capped at 50000 characters. -/
def run_read_lines (lines : List String) (limit : Option Int) : String :=
  let lines2 :=
    match limit with
    | none => lines
    | some n =>
      if n != 0 && decide (n < (lines.length : Int)) then
        pySliceStrings n lines ++
          ["... (" ++ toString ((lines.length : Int) - n) ++ " more)"]
      else lines
  strTake (joinWithNewline lines2) 50000

/-- `run_read` of v2 (lines 227-235) over the modelled filesystem; the
text of an unreadable-file exception is modelled abstractly. -/
def run_read_file (root : List String) (fs : FS) (path : String) (limit : Option Int) : String :=
  match safe_path root (splitSlash path) with
  | Except.error e => "Error: " ++ e
  | Except.ok fp =>
    match lookupFile fs fp with
    | none => "Error: No such file or directory: " ++ path
    | some text => run_read_lines (pySplitlines text) limit

/-- `run_write` (v2 lines 238-245): resolve, create the parent directory
chain, overwrite the file verbatim, report `len(content)`. -/
def run_write (root : List String) (fs : FS) (path content : String) : FS × String :=
  match safe_path root (splitSlash path) with
  | Except.error e => (fs, "Error: " ++ e)
  | Except.ok fp =>
    ({ files := setFile fs.files fp content, dirs := fs.dirs ++ prefixList fp.dropLast },
      "Wrote " ++ toString content.length ++ " bytes to " ++ path)

/-- The content transformation of `run_edit` (v2 lines 251-255) once the
file's current content has been read: first-occurrence check and
replacement. -/
def edit_apply (path content old new : String) : String × String :=
  if pyIn old content then
    (pyReplaceOnce content old new, "Edited " ++ path)
  else (content, "Error: Text not found in " ++ path)

/-- `run_edit` (v2 lines 248-257) over the modelled filesystem. -/
def run_edit (root : List String) (fs : FS) (path old new : String) : FS × String :=
  match safe_path root (splitSlash path) with
  | Except.error e => (fs, "Error: " ++ e)
  | Except.ok fp =>
    match lookupFile fs fp with
    | none => (fs, "Error: No such file or directory: " ++ path)
    | some content =>
      if pyIn old content then
        ({ files := setFile fs.files fp (pyReplaceOnce content old new), dirs := fs.dirs },
          "Edited " ++ path)
      else (fs, "Error: Text not found in " ++ path)

/-- `run_todo` (v2 lines 260-264): the `try/except` around
`TODO.update`, stringifying any validation error. -/
def run_todo (m : TodoManager) (input : TodoInput) : TodoManager × String :=
  match m.update input with
  | (m2, Except.ok txt) => (m2, txt)
  | (m2, Except.error e) => (m2, "Error: " ++ e)

/-! ### Tool dispatch (v2 lines 267-278) -/

/-- The (schema-validated) argument mapping of a tool call; absent keys are
`none`.  `input.get("limit")` never raises, the other accesses are
`input[...]` and raise `KeyError` when the key is absent. -/
structure ArgMap where
  command : Option String
  path : Option String
  limit : Option Int
  content : Option String
  old_text : Option String
  new_text : Option String
  items : Option TodoInput
deriving DecidableEq

/-- The mutable state the tools act on: the todo list and the sandbox
filesystem. -/
structure World where
  todo : TodoManager
  fs : FS
deriving DecidableEq

/-- The arguments carry every key the named tool's schema requires (an
unrecognized name has no schema, so any arguments are acceptable). -/
def schemaValid (name : String) (input : ArgMap) : Bool :=
  if name == "bash" then input.command.isSome
  else if name == "read_file" then input.path.isSome
  else if name == "write_file" then input.path.isSome && input.content.isSome
  else if name == "edit_file" then
    input.path.isSome && input.old_text.isSome && input.new_text.isSome
  else if name == "TodoWrite" then input.items.isSome
  else true

/-- `execute_tool` (v2 lines 267-278): dispatch on the tool name; `none`
models an uncaught `KeyError` from a missing required argument, every
other outcome is a text result.  An unrecognized name falls through to
the fixed unknown-tool result. -/
def execute_tool (root : List String) (shell : ShellOutcome)
    (name : String) (input : ArgMap) (w : World) : Option (World × String) :=
  if name == "bash" then
    input.command.map (fun c => (w, (run_bash shell c).output))
  else if name == "read_file" then
    input.path.map (fun p => (w, run_read_file root w.fs p input.limit))
  else if name == "write_file" then
    match input.path, input.content with
    | some p, some c =>
      let r := run_write root w.fs p c
      some ({ w with fs := r.1 }, r.2)
    | _, _ => none
  else if name == "edit_file" then
    match input.path, input.old_text, input.new_text with
    | some p, some o, some n =>
      let r := run_edit root w.fs p o n
      some ({ w with fs := r.1 }, r.2)
    | _, _, _ => none
  else if name == "TodoWrite" then
    input.items.map (fun its =>
      let r := run_todo w.todo its
      ({ w with todo := r.1 }, r.2))
  else some (w, "Unknown tool: " ++ name)

/-! ### Agent loop bookkeeping and reminders (v2 lines 125-126, 284-331, 344-367) -/

/-- v2 line 125. -/
def INITIAL_REMINDER : String := "<reminder>Use TodoWrite for multi-step tasks.</reminder>"

/-- v2 line 126. -/
def NAG_REMINDER : String := "<reminder>10+ turns without todo update. Please update todos.</reminder>"

/-- The reminder-relevant loop state: `first_message` of `main` and the
global `rounds_without_todo`. -/
structure LoopState where
  first_message : Bool
  rounds_without_todo : Nat
deriving DecidableEq

/-- Building the text blocks of a user turn (v2 lines 356-366): the fixed
instructional reminder on the very first message, the nag reminder when
more than 10 rounds passed without a todo update, nothing otherwise. -/
def buildUserContent (st : LoopState) (userInput : String) : List String × LoopState :=
  if st.first_message then
    ([INITIAL_REMINDER, userInput],
      { first_message := false, rounds_without_todo := st.rounds_without_todo })
  else if st.rounds_without_todo > 10 then ([NAG_REMINDER, userInput], st)
  else ([userInput], st)

/-- `used_todo` of a batch (v2 lines 311-323): some call in the batch is
named `TodoWrite`, regardless of its outcome. -/
def usedTodo (names : List String) : Bool := names.any (fun n => n == "TodoWrite")

/-- The counter update after one batch (v2 lines 325-328). -/
def updateRounds (names : List String) (rounds : Nat) : Nat :=
  if usedTodo names then 0 else rounds + 1

/-- Execute one batch of tool calls sequentially (v2 lines 313-321);
`none` models an uncaught exception from some call. -/
def execBatch (root : List String) (shell : ShellOutcome) :
    List (String × ArgMap) → World → Option (World × List String)
  | [], w => some (w, [])
  | (n, a) :: rest, w =>
    match execute_tool root shell n a w with
    | none => none
    | some (w2, out) =>
      match execBatch root shell rest w2 with
      | none => none
      | some (w3, outs) => some (w3, out :: outs)

/-- The counter update induced by a batch of calls. -/
def batchStep (calls : List (String × ArgMap)) (rounds : Nat) : Nat :=
  updateRounds (calls.map Prod.fst) rounds

/-! ### Helper lemmas: string primitives -/

theorem startsWith_iff {α : Type} [BEq α] [LawfulBEq α] (n : List α) :
    ∀ h : List α, startsWith n h = true ↔ ∃ t, h = n ++ t := by
  induction n with
  | nil =>
    intro h
    simp [startsWith]
  | cons a as ih =>
    intro h
    cases h with
    | nil =>
      simp [startsWith]
    | cons b bs =>
      simp only [startsWith, Bool.and_eq_true, beq_iff_eq, ih bs]
      constructor
      · rintro ⟨rfl, t, rfl⟩
        exact ⟨t, rfl⟩
      · rintro ⟨t, h⟩
        cases h
        exact ⟨rfl, t, rfl⟩

theorem startsWith_append_self {α : Type} [BEq α] [LawfulBEq α] (n t : List α) :
    startsWith n (n ++ t) = true :=
  (startsWith_iff n (n ++ t)).mpr ⟨t, rfl⟩

theorem containsSub_of_occurrence {α : Type} [BEq α] [LawfulBEq α]
    (n : List α) : ∀ p t : List α, containsSub n (p ++ n ++ t) = true := by
  intro p
  induction p with
  | nil =>
    intro t
    cases hnt : n ++ t with
    | nil =>
      rcases List.append_eq_nil.mp hnt with ⟨rfl, rfl⟩
      simp [containsSub, startsWith]
    | cons c rest =>
      simp only [List.nil_append, hnt, containsSub, Bool.or_eq_true]
      exact Or.inl (hnt ▸ startsWith_append_self n t)
  | cons c p ih =>
    intro t
    simp only [List.cons_append, containsSub, Bool.or_eq_true]
    exact Or.inr (ih t)

theorem replaceFirst_first_occurrence (old new : List Char) :
    ∀ (pre s suf : List Char), s = pre ++ old ++ suf →
      (∀ i, i < pre.length → startsWith old (s.drop i) = false) →
      replaceFirst old new s = pre ++ new ++ suf := by
  intro pre
  induction pre with
  | nil =>
    intro s suf h1 _
    subst h1
    rw [List.nil_append, replaceFirst.eq_def, if_pos (startsWith_append_self old suf)]
    rw [List.drop_left, List.nil_append]
  | cons c pre ih =>
    intro s suf h1 h2
    have ht : (c :: pre) ++ old ++ suf = c :: (pre ++ old ++ suf) := by simp
    rw [ht] at h1
    subst h1
    have h0 : startsWith old (c :: (pre ++ old ++ suf)) = false := by
      have := h2 0 (Nat.succ_pos _)
      simpa using this
    rw [replaceFirst.eq_def, if_neg (by simpa using h0)]
    have hrec := ih (pre ++ old ++ suf) suf rfl (by
      intro i hi
      have := h2 (i + 1) (Nat.succ_lt_succ hi)
      simpa using this)
    simp only [hrec, List.cons_append]

theorem joinWithNewline_concat (y : String) :
    ∀ xs : List String, ∃ p : String, joinWithNewline (xs ++ [y]) = p ++ y := by
  intro xs
  induction xs with
  | nil => exact ⟨"", rfl⟩
  | cons l rest ih =>
    cases rest with
    | nil => exact ⟨l ++ "\n", rfl⟩
    | cons l2 rest2 =>
      rcases ih with ⟨p, hp⟩
      refine ⟨(l ++ "\n") ++ p, ?_⟩
      have hstep : joinWithNewline ((l :: l2 :: rest2) ++ [y]) =
          l ++ "\n" ++ joinWithNewline ((l2 :: rest2) ++ [y]) := rfl
      rw [hstep, hp]
      simp [String.append_assoc]

/-! ### Helper lemmas: TodoManager -/

theorem validateItems_ok_of_all_valid :
    ∀ (ris : List RawItem), (∀ ri ∈ ris, itemOk ri = true) →
      ∀ i : Nat, validateItems i ris = Except.ok (ris.map normItem) := by
  intro ris
  induction ris with
  | nil => intro _ i; rfl
  | cons ri rest ih =>
    intro hall i
    have hok : itemOk ri = true := hall ri (List.mem_cons_self ri rest)
    have htl : ∀ x ∈ rest, itemOk x = true := fun x hx => hall x (List.mem_cons_of_mem ri hx)
    cases ri with
    | nonObj => simp [itemOk] at hok
    | obj c s a =>
      simp only [itemOk, Bool.and_eq_true, Bool.not_eq_true'] at hok
      rcases hok with ⟨⟨hc, hs⟩, ha⟩
      simp [validateItems, hc, hs, ha, ih htl (i + 1), normItem]

theorem validateItems_not_ok_of_some_invalid :
    ∀ (ris : List RawItem) (i : Nat) (tl : List TodoItem),
      (∃ ri ∈ ris, itemOk ri = false) →
      validateItems i ris = Except.ok tl → False := by
  intro ris
  induction ris with
  | nil => rintro i tl ⟨bad, h, _⟩ _; cases h
  | cons ri rest ih =>
    rintro i tl ⟨bad, hmem, hbad⟩ heq
    cases ri with
    | nonObj => simp [validateItems] at heq
    | obj c s a =>
      by_cases hc : (normContent c == "") = true
      · simp [validateItems, hc] at heq
      · by_cases hs : statusValid (normStatus s) = true
        · by_cases ha : (pyStrip (a.getD "") == "") = true
          · simp [validateItems, hc, hs, ha] at heq
          · have hc2 : (normContent c == "") = false := by simpa using hc
            have ha2 : (pyStrip (a.getD "") == "") = false := by simpa using ha
            have hheadok : itemOk (RawItem.obj c s a) = true := by
              simp [itemOk, hc2, hs, ha2]
            have hmem2 : bad ∈ rest := by
              rcases List.mem_cons.mp hmem with h | h
              · subst h; rw [hheadok] at hbad; cases hbad
              · exact h
            cases hrec : validateItems (i + 1) rest with
            | error e => simp [validateItems, hc, hs, ha, hrec] at heq
            | ok tl2 => exact ih (i + 1) tl2 ⟨bad, hmem2, hbad⟩ hrec
        · simp [validateItems, hc, hs] at heq

theorem update_error_state_unchanged (m : TodoManager) (input : TodoInput) :
    ∀ e, (m.update input).2 = Except.error e → (m.update input).1 = m := by
  intro e
  cases input with
  | notAList => intro _; rfl
  | list ris =>
    intro herr
    simp only [TodoManager.update] at herr ⊢
    cases hv : validateItems 0 ris with
    | error e2 => simp [hv]
    | ok validated =>
      simp only [hv] at herr ⊢
      by_cases h20 : validated.length > 20
      · simp [h20]
      · by_cases hip : validated.countP (fun t => t.status == "in_progress") > 1
        · simp [h20, hip]
        · simp [h20, hip] at herr

/-! ### Helper lemmas: paths and filesystem -/

theorem resolveComps_canonical_shift :
    ∀ (root : List String), canonicalPath root = true →
      ∀ (acc rest : List String), resolveComps acc (root ++ rest) = resolveComps (acc ++ root) rest := by
  intro root
  induction root with
  | nil =>
    intro _ acc rest
    simp
  | cons c cs ih =>
    intro hcanon acc rest
    have hc : canonicalComp c = true := by
      have := List.all_eq_true.mp hcanon c (List.mem_cons_self c cs)
      exact this
    have hcs : canonicalPath cs = true := by
      apply List.all_eq_true.mpr
      intro x hx
      exact List.all_eq_true.mp hcanon x (List.mem_cons_of_mem c hx)
    simp only [canonicalComp, Bool.not_eq_true', Bool.or_eq_false_iff] at hc
    rcases hc with ⟨⟨hdot, hdotdot⟩, hempty⟩
    have hstep : resolveComps acc ((c :: cs) ++ rest) = resolveComps (acc ++ [c]) (cs ++ rest) := by
      simp only [List.cons_append, resolveComps, hdot, hdotdot, hempty]
      simp
    rw [hstep, ih hcs (acc ++ [c]) rest]
    simp

theorem startsWith_append_false_of_ne {root tail : List String} (x y : String)
    (hne : x ≠ y) : startsWith (root ++ [x]) (root ++ [y] ++ tail) = false := by
  by_contra h
  have h2 : startsWith (root ++ [x]) (root ++ [y] ++ tail) = true := by
    cases hb : startsWith (root ++ [x]) (root ++ [y] ++ tail) with
    | true => rfl
    | false => exact absurd hb h
  rcases (startsWith_iff _ _).mp h2 with ⟨t, ht⟩
  rw [List.append_assoc, List.append_assoc] at ht
  have := List.append_cancel_left ht
  rw [List.cons_append, List.cons_append] at this
  exact hne (List.cons_eq_cons.mp this).1.symm

theorem lookupFile_setFile (dirs : List (List String)) :
    ∀ (files : List (List String × String)) (p : List String) (content : String),
      lookupFile { files := setFile files p content, dirs := dirs } p = some content := by
  intro files
  induction files with
  | nil =>
    intro p content
    simp [setFile, lookupFile]
  | cons kv rest ih =>
    intro p content
    by_cases hk : (kv.1 == p) = true
    · simp [setFile, hk, lookupFile]
    · have hk2 : (kv.1 == p) = false := by simpa using hk
      simp only [setFile, hk2, Bool.false_eq_true, if_false, lookupFile, List.find?]
      exact ih p content

theorem foldl_batchStep_reset :
    ∀ (batches : List (List (String × ArgMap))) (r0 : Nat),
      batches ≠ [] →
      (∀ b ∈ batches, usedTodo (b.map Prod.fst) = true) →
      List.foldl (fun x b => batchStep b x) r0 batches = 0 := by
  intro batches
  induction batches with
  | nil => intro r0 h _; exact absurd rfl h
  | cons b rest ih =>
    intro r0 _ hall
    have hb : usedTodo (b.map Prod.fst) = true := hall b (List.mem_cons_self b rest)
    have hstep : batchStep b r0 = 0 := by simp [batchStep, updateRounds, hb]
    cases rest with
    | nil => simp [hstep]
    | cons b2 rest2 =>
      have := ih (batchStep b r0) (by simp) (fun x hx => hall x (List.mem_cons_of_mem b hx))
      simpa using this

/-- `execute_tool` on a `TodoWrite` call whose validation fails returns the
stringified error and leaves the world unchanged. -/
theorem execute_tool_todoWrite_error (root : List String) (shell : ShellOutcome)
    (a : ArgMap) (w : World) (its : TodoInput) (e : String)
    (hits : a.items = some its) (herr : (w.todo.update its).2 = Except.error e) :
    execute_tool root shell "TodoWrite" a w = some (w, "Error: " ++ e) := by
  have ebash : (("TodoWrite" : String) == "bash") = false := rfl
  have eread : (("TodoWrite" : String) == "read_file") = false := rfl
  have ewrite : (("TodoWrite" : String) == "write_file") = false := rfl
  have eedit : (("TodoWrite" : String) == "edit_file") = false := rfl
  have etodo : (("TodoWrite" : String) == "TodoWrite") = true := rfl
  have hfst : (w.todo.update its).1 = w.todo := update_error_state_unchanged w.todo its e herr
  have hpair : w.todo.update its = (w.todo, Except.error e) := Prod.ext hfst herr
  simp only [execute_tool, ebash, eread, ewrite, eedit, etodo,
    Bool.false_eq_true, if_false, if_true]
  rw [hits]
  simp only [Option.map_some']
  simp only [run_todo, hpair]

/-! ### Claim theorems -/

/-- Claim C1: every call to `TodoManager.update` whose input violates any
validation rule (not a list, an item not a structured item or with empty
trimmed content/activeForm or an invalid status, more than 20 items, or
more than one item in progress) fails with a validation error and leaves
the previously stored list completely untouched. -/
theorem todo_update_invalid_atomic (m : TodoManager) (input : TodoInput)
    (hviol : violatesRules input = true) :
    (m.update input).1 = m ∧ ∃ e, (m.update input).2 = Except.error e := by
  have herr : ∃ e, (m.update input).2 = Except.error e := by
    cases input with
    | notAList => exact ⟨"Items must be a list", rfl⟩
    | list ris =>
      by_cases hany : ris.any (fun ri => !(itemOk ri)) = true
      · have hex : ∃ ri ∈ ris, itemOk ri = false := by
          rcases List.any_eq_true.mp hany with ⟨ri, hmem, hri⟩
          exact ⟨ri, hmem, by simpa using hri⟩
        cases hv : validateItems 0 ris with
        | error e => exact ⟨e, by simp [TodoManager.update, hv]⟩
        | ok tl =>
          exact absurd hv (fun h => validateItems_not_ok_of_some_invalid ris 0 tl hex h)
      · have hall : ∀ ri ∈ ris, itemOk ri = true := by
          intro ri hri
          by_contra hno
          apply hany
          refine List.any_eq_true.mpr ⟨ri, hri, ?_⟩
          have : itemOk ri = false := by
            cases h : itemOk ri with
            | true => exact absurd h hno
            | false => rfl
          simp [this]
        have hlen_or_count : 20 < ris.length ∨ 1 < ris.countP inProgressRaw := by
          simp only [violatesRules, Bool.or_eq_true] at hviol
          rcases hviol with (h | h) | h
          · exact absurd h hany
          · exact Or.inl (by simpa using h)
          · exact Or.inr (by simpa using h)
        have hv := validateItems_ok_of_all_valid ris hall 0
        simp only [TodoManager.update, hv]
        by_cases h20 : (ris.map normItem).length > 20
        · exact ⟨"Max 20 todos allowed", by rw [if_pos h20]⟩
        · have hcnt : 1 < ris.countP inProgressRaw := by
            rcases hlen_or_count with hl | hc
            · exfalso; apply h20; rw [List.length_map]; exact hl
            · exact hc
          have hmapcnt : (ris.map normItem).countP (fun t => t.status == "in_progress") =
              ris.countP inProgressRaw := by
            rw [List.countP_map]; rfl
          refine ⟨"Only one task can be in_progress", ?_⟩
          rw [if_neg h20, if_pos (by rw [hmapcnt]; exact hcnt)]
  obtain ⟨e, he⟩ := herr
  exact ⟨update_error_state_unchanged m input e he, e, he⟩

theorem todo_update_invalid_atomic_witness :
    violatesRules (TodoInput.list
      [RawItem.obj (some "t1") (some "in_progress") (some "doing one"),
       RawItem.obj (some "t2") (some "IN_PROGRESS") (some "doing two")]) = true ∧
    ((TodoManager.mk [⟨"a", "pending", "b"⟩]).update (TodoInput.list
      [RawItem.obj (some "t1") (some "in_progress") (some "doing one"),
       RawItem.obj (some "t2") (some "IN_PROGRESS") (some "doing two")])).1 =
      TodoManager.mk [⟨"a", "pending", "b"⟩] ∧
    ∃ e, ((TodoManager.mk [⟨"a", "pending", "b"⟩]).update (TodoInput.list
      [RawItem.obj (some "t1") (some "in_progress") (some "doing one"),
       RawItem.obj (some "t2") (some "IN_PROGRESS") (some "doing two")])).2 =
      Except.error e :=
  ⟨by decide,
   (todo_update_invalid_atomic _ _ (by decide)).1,
   (todo_update_invalid_atomic _ _ (by decide)).2⟩

/-- Claim C2, counterexample: for the empty (valid) item list, `update`
succeeds but the rendered view is the fixed text "No todos.", which does
not end with the "(0/0 completed)" count the claim requires. -/
theorem todo_update_empty_counterexample :
    (TodoManager.update { items := [] } (TodoInput.list [])).2 = Except.ok "No todos." ∧
    ¬ ∃ p : String, "No todos." = p ++ "(0/0 completed)" := by
  constructor
  · rfl
  · rintro ⟨p, hp⟩
    have hlen := congrArg String.length hp
    rw [String.length_append] at hlen
    rw [show ("No todos." : String).length = 9 from rfl] at hlen
    rw [show ("(0/0 completed)" : String).length = 15 from rfl] at hlen
    omega

/-- Claim C2 (amended): for every valid NONEMPTY item list (at most 20
entries, at most one in progress, every item's content and activeForm
non-empty after trimming, every status valid case-insensitively),
`update` succeeds and the rendered view it returns ends with a trailing
completed/total count whose completed equals the number of input items
with (normalised) status completed and whose total equals the input
length; for the empty list `update` succeeds but renders "No todos."
with no trailing count. -/
theorem todo_update_valid_render_count (m : TodoManager) (ris : List RawItem)
    (hne : ris ≠ [])
    (hall : ∀ ri ∈ ris, itemOk ri = true)
    (hlen : ris.length ≤ 20)
    (hip : ris.countP inProgressRaw ≤ 1) :
    (m.update (TodoInput.list ris)).1 = { items := ris.map normItem } ∧
    ∃ p, (m.update (TodoInput.list ris)).2 =
      Except.ok (p ++ ("(" ++ toString (ris.countP completedRaw) ++ "/" ++
        toString ris.length ++ " completed)")) := by
  have hv := validateItems_ok_of_all_valid ris hall 0
  simp only [TodoManager.update, hv]
  have hmap20 : ¬ ((ris.map normItem).length > 20) := by
    rw [List.length_map]; omega
  have hmapip : ¬ ((ris.map normItem).countP (fun t => t.status == "in_progress") > 1) := by
    have h : (ris.map normItem).countP (fun t => t.status == "in_progress") =
        ris.countP inProgressRaw := by
      rw [List.countP_map]; rfl
    rw [h]; omega
  rw [if_neg hmap20, if_neg hmapip]
  refine ⟨rfl, ?_⟩
  have hcompl : (ris.map normItem).countP (fun t => t.status == "completed") =
      ris.countP completedRaw := by
    rw [List.countP_map]; rfl
  have hlenmap : (ris.map normItem).length = ris.length := List.length_map _ _
  have hemp : (ris.map normItem).isEmpty = false := by
    cases hr : ris with
    | nil => exact absurd hr hne
    | cons a as => simp [hr]
  show ∃ p, Except.ok (TodoManager.render { items := ris.map normItem }) = _
  rw [TodoManager.render]
  simp only [hemp, Bool.false_eq_true, if_false, hcompl, hlenmap]
  rcases joinWithNewline_concat
      ("\n(" ++ toString (ris.countP completedRaw) ++ "/" ++ toString ris.length ++ " completed)")
      ((ris.map normItem).map renderLine) with ⟨p, hp⟩
  refine ⟨p ++ "\n", ?_⟩
  rw [hp]
  have hsplit : ∀ X : String, ("\n(" : String) ++ X = "\n" ++ ("(" ++ X) := by
    intro X
    rw [show ("\n(" : String) = "\n" ++ "(" from rfl, String.append_assoc]
  simp only [String.append_assoc, hsplit]

theorem todo_update_valid_render_count_witness :
    ([RawItem.obj (some "t1") (some "completed") (some "doing one"),
      RawItem.obj (some "t2") (some "pending") (some "doing two")] ≠
        ([] : List RawItem)) ∧
    (∀ ri ∈ [RawItem.obj (some "t1") (some "completed") (some "doing one"),
      RawItem.obj (some "t2") (some "pending") (some "doing two")], itemOk ri = true) ∧
    ∃ p, ((TodoManager.mk []).update (TodoInput.list
      [RawItem.obj (some "t1") (some "completed") (some "doing one"),
       RawItem.obj (some "t2") (some "pending") (some "doing two")])).2 =
      Except.ok (p ++ ("(" ++ toString (List.countP completedRaw
        [RawItem.obj (some "t1") (some "completed") (some "doing one"),
         RawItem.obj (some "t2") (some "pending") (some "doing two")]) ++ "/" ++
        toString (List.length
        [RawItem.obj (some "t1") (some "completed") (some "doing one"),
         RawItem.obj (some "t2") (some "pending") (some "doing two")]) ++ " completed)")) :=
  ⟨by decide, by decide,
   (todo_update_valid_render_count (TodoManager.mk []) _
      (by decide) (by decide) (by decide) (by decide)).2⟩

/-- Claim C3, counterexample: when the sandbox root is the filesystem root
`/` (the empty component list — `WORKDIR` is whatever directory the
process started in), the candidate "../outside.txt" resolves to
/outside.txt, which IS a descendant of the root, so `safe_path` succeeds
instead of failing with a path escape. -/
theorem safe_path_root_slash_counterexample :
    safe_path [] ["..", "outside.txt"] = Except.ok ["outside.txt"] := rfl

/-- Claim C3 (amended): the resolver joins the candidate to the root,
canonicalizes it lexically (resolving `..`, clamped at the filesystem
root, on a symlink-free filesystem) and succeeds only when the result is
the root or a descendant of it; "../outside.txt" fails with a path-escape
error against every canonical sandbox root that is not the filesystem
root itself and whose final component is not named "outside.txt" (for
such roots the candidate resolves back to the root and is allowed); and
"a/b/../c.txt" normalizes to "a/c.txt" under the root and succeeds. -/
theorem safe_path_escape_and_normalize (root : List String)
    (hcanon : canonicalPath root = true) :
    (∀ p q, safe_path root p = Except.ok q → startsWith root q = true) ∧
    (root ≠ [] → root.getLast? ≠ some "outside.txt" →
      safe_path root ["..", "outside.txt"] = Except.error "Path escapes workspace") ∧
    safe_path root ["a", "b", "..", "c.txt"] = Except.ok (root ++ ["a", "c.txt"]) := by
  have hshift := resolveComps_canonical_shift root hcanon []
  refine ⟨?_, ?_, ?_⟩
  · intro p q h
    by_cases hs : startsWith root (resolveComps [] (root ++ p)) = true
    · simp only [safe_path, if_pos hs] at h
      cases h
      exact hs
    · simp only [safe_path, if_neg hs] at h
      exact (Except.noConfusion h)
  · intro hne hlast
    rcases List.eq_nil_or_concat root with hnil | ⟨r, x, hrx⟩
    · exact absurd hnil hne
    · rw [List.concat_eq_append] at hrx
      have hx : x ≠ "outside.txt" := by
        intro hxe
        apply hlast
        rw [hrx, hxe, List.getLast?_concat]
      have c1 : (((".." : String) == ".") || ((".." : String) == "")) = false := rfl
      have c2 : ((".." : String) == "..") = true := rfl
      have c3 : ((("outside.txt" : String) == ".") || (("outside.txt" : String) == "")) = false := rfl
      have c4 : (("outside.txt" : String) == "..") = false := rfl
      have hres : resolveComps root ["..", "outside.txt"] = root.dropLast ++ ["outside.txt"] := by
        simp only [resolveComps, c1, c2, c3, c4, Bool.false_eq_true, if_false, if_true]
      have hres2 : resolveComps [] (root ++ ["..", "outside.txt"]) = r ++ ["outside.txt"] := by
        rw [hshift, List.nil_append, hres, hrx, List.dropLast_concat]
      have hsw : startsWith root (resolveComps [] (root ++ ["..", "outside.txt"])) = false := by
        rw [hres2, hrx]
        have := @startsWith_append_false_of_ne r [] x "outside.txt" hx
        rwa [List.append_nil] at this
      simp only [safe_path, hsw, Bool.false_eq_true, if_false]
  · have d1 : ((("a" : String) == ".") || (("a" : String) == "")) = false := rfl
    have d2 : (("a" : String) == "..") = false := rfl
    have d3 : ((("b" : String) == ".") || (("b" : String) == "")) = false := rfl
    have d4 : (("b" : String) == "..") = false := rfl
    have d5 : ((("c.txt" : String) == ".") || (("c.txt" : String) == "")) = false := rfl
    have d6 : (("c.txt" : String) == "..") = false := rfl
    have c1 : (((".." : String) == ".") || ((".." : String) == "")) = false := rfl
    have c2 : ((".." : String) == "..") = true := rfl
    have hres : resolveComps root ["a", "b", "..", "c.txt"] = root ++ ["a", "c.txt"] := by
      simp only [resolveComps, d1, d2, d3, d4, d5, d6, c1, c2,
        Bool.false_eq_true, if_false, if_true, List.dropLast_concat]
      rw [List.append_assoc]
      rfl
    have hres2 : resolveComps [] (root ++ ["a", "b", "..", "c.txt"]) = root ++ ["a", "c.txt"] := by
      rw [hshift, List.nil_append, hres]
    have hsw : startsWith root (resolveComps [] (root ++ ["a", "b", "..", "c.txt"])) = true := by
      rw [hres2]
      exact startsWith_append_self root ["a", "c.txt"]
    simp only [safe_path, hsw, if_true]
    rw [hres2]

theorem safe_path_escape_and_normalize_witness :
    canonicalPath ["home", "user"] = true ∧
    safe_path ["home", "user"] ["..", "outside.txt"] = Except.error "Path escapes workspace" ∧
    safe_path ["home", "user"] ["a", "b", "..", "c.txt"] =
      Except.ok (["home", "user"] ++ ["a", "c.txt"]) :=
  ⟨by decide,
   (safe_path_escape_and_normalize ["home", "user"] (by decide)).2.1 (by decide) (by decide),
   (safe_path_escape_and_normalize ["home", "user"] (by decide)).2.2⟩

/-- Claim C4: whenever the file's current content contains `old_text`
(witnessed by a decomposition at its first occurrence), `edit_apply`
replaces exactly that first occurrence — the result is the prefix before
it, then `new_text`, then the unchanged remainder, even when `old_text`
occurs again later — and when `old_text` does not occur, the edit fails
with a not-found error and the content is unchanged. -/
theorem edit_replaces_first_occurrence (path content old new : String)
    (pre suf : List Char) :
    (content.data = pre ++ old.data ++ suf →
      (∀ i, i < pre.length → startsWith old.data (content.data.drop i) = false) →
      edit_apply path content old new =
        (⟨pre ++ new.data ++ suf⟩, "Edited " ++ path)) ∧
    (pyIn old content = false →
      edit_apply path content old new = (content, "Error: Text not found in " ++ path)) := by
  constructor
  · intro h1 h2
    have hin : pyIn old content = true := by
      rw [pyIn, h1]
      exact containsSub_of_occurrence old.data pre suf
    rw [edit_apply, if_pos hin]
    have hrepl : replaceFirst old.data new.data content.data = pre ++ new.data ++ suf :=
      replaceFirst_first_occurrence old.data new.data pre content.data suf h1 h2
    rw [pyReplaceOnce, hrepl]
  · intro hno
    rw [edit_apply, if_neg (by simp [hno])]

theorem edit_replaces_first_occurrence_witness :
    ("abcbc" : String).data = "a".data ++ "bc".data ++ "bc".data ∧
    (∀ i, i < ("a" : String).data.length →
      startsWith ("bc" : String).data (("abcbc" : String).data.drop i) = false) ∧
    edit_apply "f.txt" "abcbc" "bc" "ZZ" = (⟨"a".data ++ "ZZ".data ++ "bc".data⟩, "Edited f.txt") :=
  ⟨by decide, by decide,
   (edit_replaces_first_occurrence "f.txt" "abcbc" "bc" "ZZ" "a".data "bc".data).1
     (by decide) (by decide)⟩

/-- Claim C5: for every tool name and schema-validated argument mapping,
`execute_tool` returns a text result and never raises to its caller
(totality under schema-validity); an unrecognized tool name yields the
fixed "Unknown tool: name" result with the world unchanged; and every
failure inside a tool — task-list validation violation, shell timeout,
bad path, failed edit match — is converted to an error-prefixed text
result with the corresponding state untouched. -/
theorem execute_tool_total_contract (root : List String) (shell : ShellOutcome)
    (name : String) (input : ArgMap) (w : World) :
    (schemaValid name input = true → (execute_tool root shell name input w).isSome = true) ∧
    (name ≠ "bash" → name ≠ "read_file" → name ≠ "write_file" → name ≠ "edit_file" →
      name ≠ "TodoWrite" →
      execute_tool root shell name input w = some (w, "Unknown tool: " ++ name)) ∧
    (∀ its e, input.items = some its → (w.todo.update its).2 = Except.error e →
      execute_tool root shell "TodoWrite" input w = some (w, "Error: " ++ e)) ∧
    (∀ c, input.command = some c → shell = ShellOutcome.timedOut →
      dangerous_v2.any (fun d => pyIn d c) = false →
      execute_tool root shell "bash" input w = some (w, "Error: Timeout")) ∧
    (∀ p e, input.path = some p → safe_path root (splitSlash p) = Except.error e →
      execute_tool root shell "read_file" input w = some (w, "Error: " ++ e)) ∧
    (∀ p o n fp content, input.path = some p → input.old_text = some o →
      input.new_text = some n → safe_path root (splitSlash p) = Except.ok fp →
      lookupFile w.fs fp = some content → pyIn o content = false →
      execute_tool root shell "edit_file" input w =
        some (w, "Error: Text not found in " ++ p)) := by
  refine ⟨?_, ?_, ?_, ?_, ?_, ?_⟩
  · intro hval
    simp only [schemaValid] at hval
    simp only [execute_tool]
    by_cases h1 : (name == "bash") = true
    · rw [if_pos h1] at hval
      rw [if_pos h1]
      cases hc : input.command with
      | none => rw [hc] at hval; simp at hval
      | some c => simp [hc]
    · rw [if_neg h1] at hval
      rw [if_neg h1]
      by_cases h2 : (name == "read_file") = true
      · rw [if_pos h2] at hval
        rw [if_pos h2]
        cases hc : input.path with
        | none => rw [hc] at hval; simp at hval
        | some p => simp [hc]
      · rw [if_neg h2] at hval
        rw [if_neg h2]
        by_cases h3 : (name == "write_file") = true
        · rw [if_pos h3] at hval
          rw [if_pos h3]
          rw [Bool.and_eq_true] at hval
          rcases hval with ⟨hp, hc⟩
          cases hp2 : input.path with
          | none => rw [hp2] at hp; simp at hp
          | some p =>
            cases hc2 : input.content with
            | none => rw [hc2] at hc; simp at hc
            | some c => simp [hp2, hc2]
        · rw [if_neg h3] at hval
          rw [if_neg h3]
          by_cases h4 : (name == "edit_file") = true
          · rw [if_pos h4] at hval
            rw [if_pos h4]
            rw [Bool.and_eq_true, Bool.and_eq_true] at hval
            rcases hval with ⟨⟨hp, ho⟩, hn⟩
            cases hp2 : input.path with
            | none => rw [hp2] at hp; simp at hp
            | some p =>
              cases ho2 : input.old_text with
              | none => rw [ho2] at ho; simp at ho
              | some o =>
                cases hn2 : input.new_text with
                | none => rw [hn2] at hn; simp at hn
                | some n => simp [hp2, ho2, hn2]
          · rw [if_neg h4] at hval
            rw [if_neg h4]
            by_cases h5 : (name == "TodoWrite") = true
            · rw [if_pos h5] at hval
              rw [if_pos h5]
              cases hi : input.items with
              | none => rw [hi] at hval; simp at hval
              | some its => simp [hi]
            · rw [if_neg h5]
              rfl
  · intro hn1 hn2 hn3 hn4 hn5
    simp only [execute_tool]
    rw [if_neg (by simp [beq_eq_false_iff_ne.mpr hn1])]
    rw [if_neg (by simp [beq_eq_false_iff_ne.mpr hn2])]
    rw [if_neg (by simp [beq_eq_false_iff_ne.mpr hn3])]
    rw [if_neg (by simp [beq_eq_false_iff_ne.mpr hn4])]
    rw [if_neg (by simp [beq_eq_false_iff_ne.mpr hn5])]
  · intro its e hits herr
    exact execute_tool_todoWrite_error root shell input w its e hits herr
  · intro c hc hsh hdang
    subst hsh
    simp only [execute_tool, if_pos (show (("bash" : String) == "bash") = true from rfl)]
    rw [hc]
    simp only [Option.map_some']
    simp only [run_bash, run_bash_core, hdang, Bool.false_eq_true, if_false]
  · intro p e hp herr
    have r1 : (("read_file" : String) == "bash") = false := rfl
    have r2 : (("read_file" : String) == "read_file") = true := rfl
    simp only [execute_tool, r1, r2, Bool.false_eq_true, if_false, if_true]
    rw [hp]
    simp only [Option.map_some']
    simp only [run_read_file, herr]
  · intro p o n fp content hp ho hn hsp hlook hnotin
    have d1 : (("edit_file" : String) == "bash") = false := rfl
    have d2 : (("edit_file" : String) == "read_file") = false := rfl
    have d3 : (("edit_file" : String) == "write_file") = false := rfl
    have d4 : (("edit_file" : String) == "edit_file") = true := rfl
    simp only [execute_tool, d1, d2, d3, d4, Bool.false_eq_true, if_false, if_true]
    rw [hp, ho, hn]
    simp only [run_edit, hsp, hlook, hnotin, Bool.false_eq_true, if_false]

theorem execute_tool_total_contract_witness :
    execute_tool [] (ShellOutcome.finished "") "frobnicate"
      (ArgMap.mk none none none none none none none)
      (World.mk (TodoManager.mk []) (FS.mk [] [])) =
      some (World.mk (TodoManager.mk []) (FS.mk [] []), "Unknown tool: frobnicate") :=
  (execute_tool_total_contract [] (ShellOutcome.finished "") "frobnicate"
     (ArgMap.mk none none none none none none none)
     (World.mk (TodoManager.mk []) (FS.mk [] []))).2.1
    (by decide) (by decide) (by decide) (by decide) (by decide)

/-- Claim C6, counterexample: the v2 executor's denylist has no raw device
redirection entry, so a command containing "> /dev/" (and none of v2's
four entries) is NOT blocked: a process is spawned. -/
theorem run_bash_v2_dev_redirect_counterexample :
    pyIn "> /dev/" "cat f.txt > /dev/null" = true ∧
    (run_bash (ShellOutcome.finished "ok") "cat f.txt > /dev/null").spawned = true ∧
    run_bash (ShellOutcome.finished "ok") "cat f.txt > /dev/null" =
      { spawned := true, output := "ok" } := by
  refine ⟨by decide, ?_, ?_⟩ <;> decide

/-- Claim C6 (amended): each executor rejects, before any process is
spawned, every command containing one of ITS fixed denylist substrings —
recursive root deletion, sudo, shutdown, reboot in both versions, and raw
device redirection ("> /dev/") only in v1, not in v2; in particular every
command containing "sudo" is blocked pre-execution by both. -/
theorem run_bash_denylist_blocks (shell : ShellOutcome) (cmd : String) :
    (dangerous_v2.any (fun d => pyIn d cmd) = true →
      run_bash shell cmd = { spawned := false, output := "Error: Dangerous command blocked" }) ∧
    (dangerous_v1.any (fun d => pyIn d cmd) = true →
      run_bash_v1 shell cmd = { spawned := false, output := "Error: Dangerous command blocked" }) ∧
    (pyIn "sudo" cmd = true →
      run_bash shell cmd = { spawned := false, output := "Error: Dangerous command blocked" } ∧
      run_bash_v1 shell cmd = { spawned := false, output := "Error: Dangerous command blocked" }) := by
  have hblock2 : dangerous_v2.any (fun d => pyIn d cmd) = true →
      run_bash shell cmd = { spawned := false, output := "Error: Dangerous command blocked" } := by
    intro h
    simp only [run_bash, run_bash_core, h, if_true]
  have hblock1 : dangerous_v1.any (fun d => pyIn d cmd) = true →
      run_bash_v1 shell cmd = { spawned := false, output := "Error: Dangerous command blocked" } := by
    intro h
    simp only [run_bash_v1, run_bash_core, h, if_true]
  refine ⟨hblock2, hblock1, ?_⟩
  intro hsudo
  constructor
  · exact hblock2 (List.any_eq_true.mpr ⟨"sudo", by decide, hsudo⟩)
  · exact hblock1 (List.any_eq_true.mpr ⟨"sudo", by decide, hsudo⟩)

theorem run_bash_denylist_blocks_witness :
    pyIn "sudo" "sudo rm x" = true ∧
    run_bash (ShellOutcome.finished "nope") "sudo rm x" =
      { spawned := false, output := "Error: Dangerous command blocked" } ∧
    run_bash_v1 (ShellOutcome.finished "nope") "sudo rm x" =
      { spawned := false, output := "Error: Dangerous command blocked" } :=
  ⟨by decide,
   ((run_bash_denylist_blocks (ShellOutcome.finished "nope") "sudo rm x").2.2 (by decide)).1,
   ((run_bash_denylist_blocks (ShellOutcome.finished "nope") "sudo rm x").2.2 (by decide)).2⟩

/-- Claim C7, counterexample: a supplied limit of 0 (smaller than the
2-line count) is falsy in `if limit and limit < len(lines)`, so the read
is NOT truncated to 0 lines with an omission marker: the whole content
comes back. -/
theorem run_read_limit_zero_counterexample :
    run_read_lines ["a", "b"] (some 0) = "a\nb" ∧
    ("a\nb" : String) ≠ "... (2 more)" := by
  constructor
  · decide
  · decide

/-- Claim C7 (amended): for every supplied POSITIVE limit smaller than the
file's line count, the read returns exactly the first `limit` lines
followed by one marker line stating how many lines were omitted (all
capped at 50000 characters); a limit of 0 is falsy and truncates nothing;
and the returned text is always hard-capped at 50000 characters with no
marker for that cap. -/
theorem run_read_positive_limit_truncates (lines : List String) (n : Int) (limit : Option Int) :
    (0 < n → n < (lines.length : Int) →
      run_read_lines lines (some n) =
        strTake (joinWithNewline (lines.take n.toNat ++
          ["... (" ++ toString ((lines.length : Int) - n) ++ " more)"])) 50000) ∧
    (run_read_lines lines limit).length ≤ 50000 := by
  constructor
  · intro h0 hlt
    simp only [run_read_lines]
    have hcond : (n != 0 && decide (n < (lines.length : Int))) = true := by
      rw [Bool.and_eq_true]
      constructor
      · rw [bne_iff_ne]
        omega
      · exact decide_eq_true hlt
    rw [if_pos hcond, pySliceStrings, if_pos (le_of_lt h0)]
  · have hgen : ∀ s : String, (strTake s 50000).length ≤ 50000 := by
      intro s
      have hlen : (strTake s 50000).length = (s.data.take 50000).length := rfl
      rw [hlen, List.length_take]
      exact min_le_left _ _
    simp only [run_read_lines]
    exact hgen _

theorem run_read_positive_limit_truncates_witness :
    ((0 : Int) < 1 ∧ (1 : Int) < ((["a", "b", "c"] : List String).length : Int)) ∧
    run_read_lines ["a", "b", "c"] (some 1) =
      strTake (joinWithNewline ((["a", "b", "c"] : List String).take (1 : Int).toNat ++
        ["... (" ++ toString (((["a", "b", "c"] : List String).length : Int) - 1) ++ " more)"])) 50000 :=
  ⟨⟨by decide, by decide⟩,
   (run_read_positive_limit_truncates ["a", "b", "c"] 1 (some 1)).1 (by decide) (by decide)⟩

/-- Claim C8, counterexample: the reported count is Python's `len(content)`
— the number of code points — not the number of bytes written: for the
one-character content "é" the tool reports "Wrote 1 bytes" although its
UTF-8 encoding, which `write_text` puts on disk, is 2 bytes long. -/
theorem run_write_bytes_counterexample :
    (run_write ["ws"] (FS.mk [] []) "a.txt" "é").2 = "Wrote 1 bytes to a.txt" ∧
    ("é" : String).utf8ByteSize = 2 := by
  constructor
  · decide
  · decide

/-- Claim C8 (amended): `write` creates the missing parent directory
chain, overwrites the target verbatim with exactly the given content (no
append), and reports `len(content)` — the content's CHARACTER (code
point) count, which equals its byte length only for ASCII content; in
particular writing "hi" to "a.txt" reports "Wrote 2 bytes to a.txt". -/
theorem run_write_reports_length (root : List String) (fs : FS) (path content : String)
    (fp : List String)
    (hcanon : canonicalPath root = true)
    (hsp : safe_path root (splitSlash path) = Except.ok fp) :
    (run_write root fs path content).2 =
      "Wrote " ++ toString content.length ++ " bytes to " ++ path ∧
    lookupFile (run_write root fs path content).1 fp = some content ∧
    (∀ d, d ∈ prefixList fp.dropLast → d ∈ (run_write root fs path content).1.dirs) ∧
    (run_write root fs "a.txt" "hi").2 = "Wrote 2 bytes to a.txt" := by
  have ha : safe_path root (splitSlash "a.txt") = Except.ok (root ++ ["a.txt"]) := by
    have e1 : ((("a.txt" : String) == ".") || (("a.txt" : String) == "")) = false := rfl
    have e2 : (("a.txt" : String) == "..") = false := rfl
    have hres : resolveComps root ["a.txt"] = root ++ ["a.txt"] := by
      simp only [resolveComps, e1, e2, Bool.false_eq_true, if_false]
    have hres2 : resolveComps [] (root ++ splitSlash "a.txt") = root ++ ["a.txt"] := by
      rw [show splitSlash "a.txt" = ["a.txt"] from rfl,
        resolveComps_canonical_shift root hcanon [], List.nil_append, hres]
    simp only [safe_path, hres2, startsWith_append_self root ["a.txt"], if_true]
  refine ⟨?_, ?_, ?_, ?_⟩
  · simp only [run_write, hsp]
  · simp only [run_write, hsp]
    exact lookupFile_setFile _ fs.files fp content
  · intro d hd
    simp only [run_write, hsp]
    exact List.mem_append_right fs.dirs hd
  · simp only [run_write, ha]
    decide

theorem run_write_reports_length_witness :
    canonicalPath ["ws"] = true ∧
    safe_path ["ws"] (splitSlash "notes.txt") = Except.ok ["ws", "notes.txt"] ∧
    (run_write ["ws"] (FS.mk [] []) "notes.txt" "hi").2 =
      "Wrote " ++ toString ("hi" : String).length ++ " bytes to " ++ "notes.txt" ∧
    lookupFile (run_write ["ws"] (FS.mk [] []) "notes.txt" "hi").1 ["ws", "notes.txt"] =
      some "hi" :=
  ⟨by decide, rfl,
   (run_write_reports_length ["ws"] (FS.mk [] []) "notes.txt" "hi" ["ws", "notes.txt"]
      (by decide) rfl).1,
   (run_write_reports_length ["ws"] (FS.mk [] []) "notes.txt" "hi" ["ws", "notes.txt"]
      (by decide) rfl).2.1⟩

/-- Claim C9: the session's very first user turn carries the fixed
instructional reminder; every later user turn carries the nag reminder
exactly when the rounds-without-task-update counter exceeds 10 and
otherwise carries no reminder; the counter resets to 0 whenever a tool
batch includes a task-list update and increments by 1 after every other
batch. -/
theorem reminder_injector_behavior (st : LoopState) (u : String)
    (names : List String) (r : Nat) :
    (st.first_message = true →
      (buildUserContent st u).1 = [INITIAL_REMINDER, u] ∧
      (buildUserContent st u).2 =
        { first_message := false, rounds_without_todo := st.rounds_without_todo }) ∧
    (st.first_message = false → st.rounds_without_todo > 10 →
      (buildUserContent st u).1 = [NAG_REMINDER, u]) ∧
    (st.first_message = false → st.rounds_without_todo ≤ 10 →
      (buildUserContent st u).1 = [u]) ∧
    ("TodoWrite" ∈ names → updateRounds names r = 0) ∧
    ("TodoWrite" ∉ names → updateRounds names r = r + 1) := by
  refine ⟨?_, ?_, ?_, ?_, ?_⟩
  · intro hf
    simp [buildUserContent, hf]
  · intro hf h10
    simp [buildUserContent, hf, h10]
  · intro hf h10
    simp [buildUserContent, hf, show ¬(st.rounds_without_todo > 10) from by omega]
  · intro hmem
    have h : usedTodo names = true := List.any_eq_true.mpr ⟨"TodoWrite", hmem, by simp⟩
    simp [updateRounds, h]
  · intro hmem
    have h : usedTodo names = false := by
      cases h2 : usedTodo names with
      | false => rfl
      | true =>
        rcases List.any_eq_true.mp h2 with ⟨x, hx, hxeq⟩
        rw [beq_iff_eq] at hxeq
        exact absurd (hxeq ▸ hx) hmem
    simp [updateRounds, h]

theorem reminder_injector_behavior_witness :
    ((LoopState.mk true 0).first_message = true ∧
      (buildUserContent (LoopState.mk true 0) "hi").1 = [INITIAL_REMINDER, "hi"]) ∧
    ((LoopState.mk false 11).first_message = false ∧
      (LoopState.mk false 11).rounds_without_todo > 10 ∧
      (buildUserContent (LoopState.mk false 11) "hi").1 = [NAG_REMINDER, "hi"]) ∧
    ((LoopState.mk false 10).first_message = false ∧
      (LoopState.mk false 10).rounds_without_todo ≤ 10 ∧
      (buildUserContent (LoopState.mk false 10) "hi").1 = ["hi"]) ∧
    ("TodoWrite" ∈ ["bash", "TodoWrite"] ∧ updateRounds ["bash", "TodoWrite"] 5 = 0) ∧
    ("TodoWrite" ∉ ["bash"] ∧ updateRounds ["bash"] 5 = 6) :=
  ⟨⟨rfl, ((reminder_injector_behavior (LoopState.mk true 0) "hi" [] 0).1 rfl).1⟩,
   ⟨rfl, by decide,
    (reminder_injector_behavior (LoopState.mk false 11) "hi" [] 0).2.1 rfl (by decide)⟩,
   ⟨rfl, by decide,
    (reminder_injector_behavior (LoopState.mk false 10) "hi" [] 0).2.2.1 rfl (by decide)⟩,
   ⟨by decide,
    (reminder_injector_behavior (LoopState.mk true 0) "x" ["bash", "TodoWrite"] 5).2.2.2.1
      (by decide)⟩,
   ⟨by decide,
    (reminder_injector_behavior (LoopState.mk true 0) "x" ["bash"] 5).2.2.2.2 (by decide)⟩⟩

/-- Claim C10: a batch whose only call is named TodoWrite resets the
rounds-without-todo counter to 0 even when that call fails validation
(returning an error result and leaving the stored list unchanged), so a
model issuing only invalid TodoWrite calls never triggers the nag
reminder. -/
theorem todo_reset_regardless_of_validity (root : List String) (shell : ShellOutcome)
    (w : World) (r : Nat) (a : ArgMap) (its : TodoInput) (e : String)
    (hits : a.items = some its)
    (herr : (w.todo.update its).2 = Except.error e) :
    execBatch root shell [("TodoWrite", a)] w = some (w, ["Error: " ++ e]) ∧
    batchStep [("TodoWrite", a)] r = 0 ∧
    (∀ (batches : List (List (String × ArgMap))) (r0 : Nat) (u : String),
      batches ≠ [] →
      (∀ b ∈ batches, usedTodo (b.map Prod.fst) = true) →
      (buildUserContent
        (LoopState.mk false (List.foldl (fun x b => batchStep b x) r0 batches)) u).1 = [u]) := by
  refine ⟨?_, ?_, ?_⟩
  · have hexec := execute_tool_todoWrite_error root shell a w its e hits herr
    simp only [execBatch, hexec]
  · simp [batchStep, updateRounds, usedTodo]
  · intro batches r0 u hne hall
    rw [foldl_batchStep_reset batches r0 hne hall]
    simp [buildUserContent]

theorem todo_reset_regardless_of_validity_witness :
    (ArgMap.mk none none none none none none
      (some (TodoInput.list [RawItem.obj (some "x") (some "bogus") (some "y")]))).items =
      some (TodoInput.list [RawItem.obj (some "x") (some "bogus") (some "y")]) ∧
    ((World.mk (TodoManager.mk []) (FS.mk [] [])).todo.update
      (TodoInput.list [RawItem.obj (some "x") (some "bogus") (some "y")])).2 =
      Except.error "Item 0: invalid status bogus" ∧
    execBatch [] (ShellOutcome.finished "")
      [("TodoWrite", ArgMap.mk none none none none none none
        (some (TodoInput.list [RawItem.obj (some "x") (some "bogus") (some "y")])))]
      (World.mk (TodoManager.mk []) (FS.mk [] [])) =
      some (World.mk (TodoManager.mk []) (FS.mk [] []),
        ["Error: Item 0: invalid status bogus"]) ∧
    batchStep
      [("TodoWrite", ArgMap.mk none none none none none none
        (some (TodoInput.list [RawItem.obj (some "x") (some "bogus") (some "y")])))] 7 = 0 :=
  ⟨rfl, rfl,
   (todo_reset_regardless_of_validity [] (ShellOutcome.finished "")
      (World.mk (TodoManager.mk []) (FS.mk [] [])) 7
      (ArgMap.mk none none none none none none
        (some (TodoInput.list [RawItem.obj (some "x") (some "bogus") (some "y")])))
      (TodoInput.list [RawItem.obj (some "x") (some "bogus") (some "y")])
      "Item 0: invalid status bogus" rfl rfl).1,
   (todo_reset_regardless_of_validity [] (ShellOutcome.finished "")
      (World.mk (TodoManager.mk []) (FS.mk [] [])) 7
      (ArgMap.mk none none none none none none
        (some (TodoInput.list [RawItem.obj (some "x") (some "bogus") (some "y")])))
      (TodoInput.list [RawItem.obj (some "x") (some "bogus") (some "y")])
      "Item 0: invalid status bogus" rfl rfl).2.1⟩
